import Mathlib

/-!
Verification of the kinematic feature-extraction engine of the
ai-tennis-backend repository (source file `utils_features.py`).

Coordinates of keypoints are modelled as rational pairs (every concrete
floating-point coordinate is a rational number); derived geometric
quantities (Euclidean distances, angles) live in the real numbers, with
`Real.sqrt` and `Real.arccos` standing for `math.hypot` and `math.acos`.
A keypoint frame is a finite association list from MediaPipe joint index
to point, so that a joint absent from a frame has no binding, exactly as
in the dictionaries the HTTP layer (`main.py`) feeds to
`compute_features_from_keypoints`; a lookup that would raise `KeyError`
in Python is modelled by `Option` propagation, and the whole engine
returns `Option FeatureBundle` (`none` = the call raises).
-/

/-- A 2-D point in image-pixel space, `(x, y)` with y growing downward. -/
abbrev Point := ℚ × ℚ

/-- The MediaPipe joint-name → landmark-index table `MP` of `utils_features.py`. -/
def MP : List (String × ℕ) :=
  [("left_shoulder", 11), ("right_shoulder", 12),
   ("left_elbow", 13), ("right_elbow", 14),
   ("left_wrist", 15), ("right_wrist", 16),
   ("left_hip", 23), ("right_hip", 24)]

/-- Landmark index of a joint name under `MP` (total lookup; names used by
the engine are all present in the table). -/
def mp (name : String) : ℕ := (List.lookup name MP).getD 0

/-- Model of `math.hypot x y` over rational inputs. -/
noncomputable def hypotQ (x y : ℚ) : ℝ := Real.sqrt ((x : ℝ) ^ 2 + (y : ℝ) ^ 2)

/-- Model of `_dist`: Euclidean distance between two points. -/
noncomputable def _dist (a b : Point) : ℝ := hypotQ (a.1 - b.1) (a.2 - b.2)

open Classical in
/-- Model of `_angle_at`: the angle p-q-r at vertex `q`, in degrees, or
`none` when one of the two vectors has zero length. -/
noncomputable def _angle_at (q p r : Point) : Option ℝ :=
  let v1 : Point := (p.1 - q.1, p.2 - q.2)
  let v2 : Point := (r.1 - q.1, r.2 - q.2)
  let n1 : ℝ := hypotQ v1.1 v1.2
  let n2 : ℝ := hypotQ v2.1 v2.2
  if n1 = 0 ∨ n2 = 0 then none
  else
    let c : ℝ := max (-1) (min 1 (((v1.1 * v2.1 + v1.2 * v2.2 : ℚ) : ℝ) / (n1 * n2)))
    some (Real.arccos c * 180 / Real.pi)

/-- Model of `math.atan2 y x` (the argument of the complex number x + y·i,
in (-π, π], with `atan2 0 0 = 0`). -/
noncomputable def atan2 (y x : ℝ) : ℝ := Complex.arg (Complex.mk x y)

/-- Model of `_shoulder_line_angle_deg`: signed heading of the shoulder
line in degrees; `0.0` when the two shoulders coincide. -/
noncomputable def _shoulder_line_angle_deg (left_sh right_sh : Point) : ℝ :=
  let dx := right_sh.1 - left_sh.1
  let dy := right_sh.2 - left_sh.2
  if dx = 0 ∧ dy = 0 then 0 else atan2 (dy : ℝ) (dx : ℝ) * 180 / Real.pi

open Classical in
/-- Model of `_normalize`: divide `value` by `seg_len` unless the latter is
at or below `eps`, in which case divide by `1.0`. -/
noncomputable def _normalize (value seg_len eps : ℝ) : ℝ :=
  value / (if seg_len > eps then seg_len else 1)

/-- The default epsilon `1e-6` of `_normalize`. -/
noncomputable def EPS : ℝ := 1 / 1000000

/-- Model of `moving_average`: identity for `k ≤ 1`; otherwise each output
point is the mean of the input points in the index window
`[max 0 (i - k/2), min (n-1) (i + k/2)]` (the code iterates
`range(max(0, i-half), min(n, i+half+1))`). -/
def moving_average (series : List Point) (k : ℕ) : List Point :=
  if k ≤ 1 then series
  else
    let n := series.length
    let half := k / 2
    (List.range n).map (fun i =>
      let lo := i - half
      let hi := min n (i + half + 1)
      let win := (List.range' lo (hi - lo)).map (fun j => series.getD j (0, 0))
      ((win.map Prod.fst).sum / (win.length : ℚ),
       (win.map Prod.snd).sum / (win.length : ℚ)))

/-- Index window used by the spec's description of the smoothing filter:
all indices in `[max 0 (i - k/2), min (T-1) (i + k/2)]`. -/
def windowIdxs (T k i : ℕ) : List ℕ :=
  List.range' (i - k / 2) (min (T - 1) (i + k / 2) + 1 - (i - k / 2))

/-- Arithmetic mean of the series points whose indices lie in the spec's
window around `i` (stated from the spec's words, for comparison with
`moving_average`). -/
def windowMean (s : List Point) (k i : ℕ) : Point :=
  let idxs := windowIdxs s.length k i
  (((idxs.map (fun j => (s.getD j (0, 0)).1)).sum) / (idxs.length : ℚ),
   ((idxs.map (fun j => (s.getD j (0, 0)).2)).sum) / (idxs.length : ℚ))

-- ### Input data model and the feature assembler

/-- One keypoint frame: an association list from landmark index to point,
modelling the integer-keyed dictionaries that `main.py` builds and feeds
to `compute_features_from_keypoints`; a joint not detected in the frame
simply has no binding. -/
abbrev Frame := List (ℕ × Point)

/-- A phase mark, one element of the `phases` list: a frame index and a label. -/
structure PhaseMark where
  frame : ℤ
  phase : String
deriving DecidableEq

/-- The per-joint raw position series `[kps_xy[t][idx] for t in range(T)]`:
`some` list of length T when the joint is bound in every frame, `none`
when some frame lacks it (Python raises `KeyError` there). -/
def joint_positions (kps_xy : List Frame) (idx : ℕ) : Option (List Point) :=
  match kps_xy with
  | [] => some []
  | fr :: rest =>
    match List.lookup idx fr, joint_positions rest idx with
    | some p, some ps => some (p :: ps)
    | _, _ => none

/-- Model of the inner function `track` of `compute_features_from_keypoints`:
the joint's raw series smoothed with window 5. -/
def track (kps_xy : List Frame) (idx : ℕ) : Option (List Point) :=
  (joint_positions kps_xy idx).map (fun s => moving_average s 5)

/-- Model of the inner function `frame_of`: the frame of the first phase
mark whose label case-insensitively equals `name`, or `default`. -/
def frame_of (phases : List PhaseMark) (name : String) (default : ℤ) : ℤ :=
  match phases with
  | [] => default
  | p :: rest =>
    if p.phase.toLower = name.toLower then p.frame else frame_of rest name default

/-- The clamp `max(0, min(T-1, x))` applied to every anchor frame. -/
def clampT (T : ℕ) (x : ℤ) : ℕ := (max 0 (min ((T : ℤ) - 1) x)).toNat

/-- The three phase anchors `(f_contact, f_follow, f_unit)` exactly as
resolved on lines 76-78 of `utils_features.py`. -/
def anchors (phases : List PhaseMark) (T : ℕ) : ℕ × ℕ × ℕ :=
  let f_contact := clampT T (frame_of phases ("contact") ((T : ℤ) / 2))
  let f_follow :=
    clampT T (frame_of phases ("follow_through") (min ((T : ℤ) - 1) ((f_contact : ℤ) + 12)))
  let f_unit := clampT T (frame_of phases ("unit_turn") (max 0 ((f_contact : ℤ) - 24)))
  (f_contact, f_follow, f_unit)

/-- The `contact` sub-record of the output. -/
structure ContactFeatures where
  forward_offset_norm : ℝ
  torso_rotation_deg : ℝ
  elbow_flex_deg : Option ℝ

/-- The `follow_through` sub-record of the output. -/
structure FollowThroughFeatures where
  hand_height_norm : ℝ

/-- The `timing` sub-record of the output. -/
structure TimingFeatures where
  unit_turn_to_contact_frames : ℕ

/-- The `meta.norm_segments_px` record of the output. -/
structure NormSegments where
  forearm : ℝ
  upperarm : ℝ

/-- The `meta` record of the output.  `right_handed` and `norm_segments_px`
are optional because the `T = 0` early return of the source builds `meta`
with only the `fps` key. -/
structure Meta where
  fps : ℝ
  right_handed : Option Bool
  norm_segments_px : Option NormSegments

/-- The output dictionary of `compute_features_from_keypoints`.  The three
feature sub-records are optional because the `T = 0` early return leaves
them as empty dictionaries. -/
structure FeatureBundle where
  contact : Option ContactFeatures
  follow_through : Option FollowThroughFeatures
  timing : Option TimingFeatures
  meta : Meta

/-- Body of `compute_features_from_keypoints` after the eight smoothed
tracks have been built (lines 69-132 of `utils_features.py`). -/
noncomputable def assemble (LSH RSH LEL REL LWR RWR LHP RHP : List Point)
    (phases : List PhaseMark) (T : ℕ) (fps : ℝ) (right_handed : Bool) :
    FeatureBundle :=
  let a := anchors phases T
  let f_contact := a.1
  let f_follow := a.2.1
  let f_unit := a.2.2
  let WR_c := (if right_handed then RWR else LWR).getD f_contact (0, 0)
  let EL_c := (if right_handed then REL else LEL).getD f_contact (0, 0)
  let SH_c := (if right_handed then RSH else LSH).getD f_contact (0, 0)
  let LEAD_HIP_c := (if right_handed then LHP else RHP).getD f_contact (0, 0)
  let forearm_len := _dist EL_c WR_c
  let upperarm_len := _dist SH_c EL_c
  let forward_px := WR_c.1 - LEAD_HIP_c.1
  let contact_forward_norm := _normalize |(forward_px : ℝ)| forearm_len EPS
  let shoulder_angle :=
    _shoulder_line_angle_deg (LSH.getD f_contact (0, 0)) (RSH.getD f_contact (0, 0))
  let torso_rotation_deg := |shoulder_angle|
  let elbow_flex_deg := _angle_at EL_c SH_c WR_c
  let WR_f := (if right_handed then RWR else LWR).getD f_follow (0, 0)
  let SH_f := (if right_handed then RSH else LSH).getD f_follow (0, 0)
  let hand_rel_sh := -(WR_f.2 - SH_f.2)
  let follow_through_height_norm := _normalize (hand_rel_sh : ℝ) upperarm_len EPS
  let timing_frames := f_contact - f_unit
  { contact := some
      { forward_offset_norm := contact_forward_norm,
        torso_rotation_deg := torso_rotation_deg,
        elbow_flex_deg := elbow_flex_deg },
    follow_through := some { hand_height_norm := follow_through_height_norm },
    timing := some { unit_turn_to_contact_frames := timing_frames },
    meta :=
      { fps := fps,
        right_handed := some right_handed,
        norm_segments_px := some { forearm := forearm_len, upperarm := upperarm_len } } }

/-- Model of `compute_features_from_keypoints`: the neutral bundle for
`T = 0`; otherwise the eight smoothed tracks are built (any missing joint
binding raises, i.e. yields `none`) and the bundle is assembled. -/
noncomputable def compute_features_from_keypoints (kps_xy : List Frame)
    (phases : List PhaseMark) (fps : ℝ) (right_handed : Bool) :
    Option FeatureBundle :=
  if kps_xy.length = 0 then
    some { contact := none, follow_through := none, timing := none,
           meta := { fps := fps, right_handed := none, norm_segments_px := none } }
  else
    match track kps_xy (mp ("left_shoulder")), track kps_xy (mp ("right_shoulder")),
        track kps_xy (mp ("left_elbow")), track kps_xy (mp ("right_elbow")),
        track kps_xy (mp ("left_wrist")), track kps_xy (mp ("right_wrist")),
        track kps_xy (mp ("left_hip")), track kps_xy (mp ("right_hip")) with
    | some LSH, some RSH, some LEL, some REL, some LWR, some RWR, some LHP, some RHP =>
      some (assemble LSH RSH LEL REL LWR RWR LHP RHP phases kps_xy.length fps right_handed)
    | _, _, _, _, _, _, _, _ => none

/-- The eight landmark indices the engine tracks. -/
def joints8 : List ℕ := [11, 12, 13, 14, 15, 16, 23, 24]

/-- Lead wrist landmark index, as selected on line 81 of the source. -/
def lead_wrist (rh : Bool) : ℕ := if rh then 16 else 15

/-- Lead elbow landmark index, as selected on line 82 of the source. -/
def lead_elbow (rh : Bool) : ℕ := if rh then 14 else 13

/-- Lead shoulder landmark index, as selected on line 83 of the source. -/
def lead_shoulder (rh : Bool) : ℕ := if rh then 12 else 11

/-- Lead hip landmark index (the hip opposite the dominant hand), as
selected on line 84 of the source. -/
def lead_hip (rh : Bool) : ℕ := if rh then 23 else 24

/-- The joints required for the anchor-frame measurements: lead wrist,
elbow, shoulder, lead hip, and both shoulders. -/
def requiredAnchorJoints (rh : Bool) : List ℕ :=
  [lead_wrist rh, lead_elbow rh, lead_shoulder rh, lead_hip rh, 11, 12]

/-- The smoothed position of joint `j` at frame `f`, when the joint's
track exists. -/
def smoothed_at (kps_xy : List Frame) (j f : ℕ) : Option Point :=
  (track kps_xy j).map (fun s => s.getD f (0, 0))

/-- Replace the `meta.fps` field of a bundle. -/
def FeatureBundle.withFps (b : FeatureBundle) (f : ℝ) : FeatureBundle :=
  { b with meta := { b.meta with fps := f } }

/-- The first phase mark whose label case-insensitively equals `name`,
stated from the spec's words via `List.find?` (for comparison with the
source's `frame_of` loop). -/
def firstMark (phases : List PhaseMark) (name : String) : Option ℤ :=
  Option.map PhaseMark.frame
    (phases.find? (fun p => p.phase.toLower == name.toLower))


/-- Concrete series for the C3 witness. -/
def seriesW : List Point := [(1, 0), (3, 2), (5, 4)]

-- ### Concrete inputs used by witnesses and counterexamples

/-- A frame binding all eight tracked joints to the origin. -/
def fullFrame : Frame :=
  [(11, ((0 : ℚ), (0 : ℚ))), (12, (0, 0)), (13, (0, 0)), (14, (0, 0)),
   (15, (0, 0)), (16, (0, 0)), (23, (0, 0)), (24, (0, 0))]

/-- A frame missing the left shoulder (index 11) but binding the rest. -/
def gapFrame : Frame :=
  [(12, ((0 : ℚ), (0 : ℚ))), (13, (0, 0)), (14, (0, 0)),
   (15, (0, 0)), (16, (0, 0)), (23, (0, 0)), (24, (0, 0))]

/-- Four frames: with `phases = []` the anchors are contact = 2,
follow_through = 3, unit_turn = 0; every tracked joint is bound at those
three frames, but the left shoulder is unbound at the non-anchor
frame 1. -/
def kpsGap : List Frame := [fullFrame, gapFrame, fullFrame, fullFrame]

-- ### Helper lemmas

/-- `hypotQ` vanishes exactly on the zero vector. -/
lemma hypotQ_eq_zero_iff (x y : ℚ) : hypotQ x y = 0 ↔ x = 0 ∧ y = 0 := by
  unfold hypotQ
  rw [Real.sqrt_eq_zero (by positivity)]
  constructor
  · intro h
    constructor
    · have hx : (x : ℝ) = 0 := by nlinarith [sq_nonneg (x : ℝ), sq_nonneg (y : ℝ)]
      exact_mod_cast hx
    · have hy : (y : ℝ) = 0 := by nlinarith [sq_nonneg (x : ℝ), sq_nonneg (y : ℝ)]
      exact_mod_cast hy
  · rintro ⟨rfl, rfl⟩
    norm_num

/-- The degeneracy test of `_angle_at` holds exactly when the vertex
coincides with one of the two other points. -/
lemma angle_at_eq_none_iff (q p r : Point) :
    _angle_at q p r = none ↔ p = q ∨ r = q := by
  unfold _angle_at
  dsimp only
  split
  · rename_i h
    simp only [true_iff]
    rcases h with h | h
    · left
      rw [hypotQ_eq_zero_iff] at h
      obtain ⟨h1, h2⟩ := h
      exact Prod.ext (by linarith) (by linarith)
    · right
      rw [hypotQ_eq_zero_iff] at h
      obtain ⟨h1, h2⟩ := h
      exact Prod.ext (by linarith) (by linarith)
  · rename_i h
    simp only [reduceCtorEq, false_iff]
    rintro (rfl | rfl) <;>
      exact h (by simp [hypotQ_eq_zero_iff])

/-- The loop of `frame_of` returns the first matching mark's frame,
falling back to the default. -/
lemma frame_of_eq_firstMark (phases : List PhaseMark) (name : String) (d : ℤ) :
    frame_of phases name d = (firstMark phases name).getD d := by
  induction phases with
  | nil => rfl
  | cons p rest ih =>
    unfold frame_of firstMark
    by_cases h : p.phase.toLower = name.toLower
    · rw [if_pos h, List.find?_cons_of_pos _ (by simpa using h)]
      rfl
    · rw [if_neg h, List.find?_cons_of_neg _ (by simpa using h), ih]
      rfl

/-- Every clamped anchor lies strictly below `T` when `T ≥ 1`. -/
lemma clampT_lt (T : ℕ) (hT : 1 ≤ T) (x : ℤ) : clampT T x < T := by
  unfold clampT
  omega

/-- The contact anchor, unfolded. -/
lemma anchors_contact (phases : List PhaseMark) (T : ℕ) :
    (anchors phases T).1 = clampT T (frame_of phases ("contact") ((T : ℤ) / 2)) := rfl

/-- The follow-through anchor, unfolded. -/
lemma anchors_follow (phases : List PhaseMark) (T : ℕ) :
    (anchors phases T).2.1
      = clampT T (frame_of phases ("follow_through")
          (min ((T : ℤ) - 1) (((anchors phases T).1 : ℤ) + 12))) := rfl

/-- The unit-turn anchor, unfolded. -/
lemma anchors_unit (phases : List PhaseMark) (T : ℕ) :
    (anchors phases T).2.2
      = clampT T (frame_of phases ("unit_turn")
          (max 0 (((anchors phases T).1 : ℤ) - 24))) := rfl

/-- C2: each anchor resolves to the frame of the first case-insensitively
matching phase mark, with defaults `T / 2`, `min (T-1) (contact + 12)` and
`max 0 (contact - 24)` when no mark matches; each anchor is independently
clamped into `[0, T-1]`; and with no phase marks and `T = 100` the anchors
are contact = 50, follow_through = 62, unit_turn = 26. -/
theorem C2_anchor_resolution (phases : List PhaseMark) (T : ℕ) (hT : 1 ≤ T) :
    (anchors phases T
      = (clampT T ((firstMark phases ("contact")).getD ((T : ℤ) / 2)),
         clampT T ((firstMark phases ("follow_through")).getD
           (min ((T : ℤ) - 1) (((anchors phases T).1 : ℤ) + 12))),
         clampT T ((firstMark phases ("unit_turn")).getD
           (max 0 (((anchors phases T).1 : ℤ) - 24)))))
    ∧ (anchors phases T).1 < T ∧ (anchors phases T).2.1 < T ∧ (anchors phases T).2.2 < T
    ∧ anchors ([] : List PhaseMark) 100 = (50, 62, 26) := by
  refine ⟨?_, ?_, ?_, ?_, by decide⟩
  · refine Prod.ext ?_ (Prod.ext ?_ ?_)
    · rw [anchors_contact, frame_of_eq_firstMark]
    · rw [anchors_follow, frame_of_eq_firstMark]
    · rw [anchors_unit, frame_of_eq_firstMark]
  · rw [anchors_contact]; exact clampT_lt T hT _
  · rw [anchors_follow]; exact clampT_lt T hT _
  · rw [anchors_unit]; exact clampT_lt T hT _

/-- Witness for C2 at the concrete input `phases = []`, `T = 100`. -/
theorem C2_anchor_resolution_witness :
    anchors ([] : List PhaseMark) 100 = (50, 62, 26) :=
  (C2_anchor_resolution [] 100 (by norm_num)).2.2.2.2

/-- C5: normalization is total; a segment length at or below the `1e-6`
epsilon makes the denominator `1.0` so the result is the raw value, and a
length above it divides as usual. -/
theorem C5_normalize_epsilon_fallback (v s : ℝ) :
    (s ≤ EPS → _normalize v s EPS = v) ∧ (EPS < s → _normalize v s EPS = v / s) := by
  constructor
  · intro h
    unfold _normalize
    rw [if_neg (not_lt.mpr h)]
    exact div_one v
  · intro h
    unfold _normalize
    rw [if_pos h]

/-- Witness for C5: both the degenerate branch (`s = 0`) and the regular
branch (`s = 2`) at concrete inputs. -/
theorem C5_normalize_epsilon_fallback_witness :
    _normalize 7 0 EPS = 7 ∧ _normalize 5 2 EPS = 5 / 2 :=
  ⟨(C5_normalize_epsilon_fallback 7 0).1 (by norm_num [EPS]),
   (C5_normalize_epsilon_fallback 5 2).2 (by norm_num [EPS])⟩

/-- C6 counterexample: with raw offset 5 and forearm length `1e-6` (at the
epsilon), doubling the forearm length does not halve the normalized
offset — the original length falls back to the `1.0` denominator
(yielding 5) while the doubled length divides (yielding 2500000). -/
theorem C6_counterexample :
    ¬ (_normalize |(5 : ℝ)| (2 * (1 / 1000000)) EPS
        = _normalize |(5 : ℝ)| (1 / 1000000) EPS / 2) := by
  unfold _normalize EPS
  rw [if_pos (by norm_num), if_neg (by norm_num)]
  rw [abs_of_pos (by norm_num : (0:ℝ) < 5)]
  norm_num

/-- C6 (amended): provided the forearm length at contact exceeds the
`1e-6` epsilon (so both it and its double are genuinely used as
denominators), doubling the forearm length halves the normalized forward
offset `_normalize |forward_px| forearm_len` of source lines 91-92. -/
theorem C6_forward_offset_scaling_amended (v L : ℝ) (hL : EPS < L) :
    _normalize |v| (2 * L) EPS = _normalize |v| L EPS / 2 := by
  have h0 : (0 : ℝ) < L := lt_trans (by norm_num [EPS]) hL
  unfold _normalize
  rw [if_pos (lt_trans hL (by linarith) : EPS < 2 * L), if_pos hL]
  rw [div_div, mul_comm]

/-- Witness for the amended C6 at raw offset 3 and forearm length 1. -/
theorem C6_forward_offset_scaling_amended_witness :
    _normalize |(3 : ℝ)| (2 * 1) EPS = _normalize |(3 : ℝ)| 1 EPS / 2 :=
  C6_forward_offset_scaling_amended 3 1 (by norm_num [EPS])

/-- C7: `_angle_at` returns the undefined sentinel exactly when the vertex
coincides with `p` or with `r`, and any defined value lies in `[0, 180]`
degrees. -/
theorem C7_angle_at_range_and_sentinel (q p r : Point) :
    (_angle_at q p r = none ↔ p = q ∨ r = q)
    ∧ (∀ θ : ℝ, _angle_at q p r = some θ → 0 ≤ θ ∧ θ ≤ 180) := by
  refine ⟨angle_at_eq_none_iff q p r, ?_⟩
  intro θ hθ
  unfold _angle_at at hθ
  dsimp only at hθ
  split at hθ
  · exact absurd hθ (by simp)
  · rw [Option.some_inj] at hθ
    subst hθ
    constructor
    · have h1 := Real.arccos_nonneg
        (max (-1) (min 1 ((((p.1 - q.1) * (r.1 - q.1) + (p.2 - q.2) * (r.2 - q.2) : ℚ) : ℝ)
          / (hypotQ (p.1 - q.1) (p.2 - q.2) * hypotQ (r.1 - q.1) (r.2 - q.2)))))
      have h2 := Real.pi_pos
      positivity
    · have h1 := Real.arccos_le_pi
        (max (-1) (min 1 ((((p.1 - q.1) * (r.1 - q.1) + (p.2 - q.2) * (r.2 - q.2) : ℚ) : ℝ)
          / (hypotQ (p.1 - q.1) (p.2 - q.2) * hypotQ (r.1 - q.1) (r.2 - q.2)))))
      have h2 := Real.pi_pos
      rw [div_le_iff₀ h2]
      nlinarith

/-- Witness for C7: the angle at `(0,0)` between `(1,0)` and `(1,0)` is a
defined value (zero degrees), which the theorem places in `[0, 180]`. -/
theorem C7_angle_at_range_and_sentinel_witness : (0 : ℝ) ≤ 0 ∧ (0 : ℝ) ≤ 180 :=
  (C7_angle_at_range_and_sentinel (0, 0) (1, 0) (1, 0)).2 0 (by
    have hh : hypotQ (1 - 0) (0 - 0) = 1 := by
      unfold hypotQ
      norm_num
    unfold _angle_at
    dsimp only
    rw [hh]
    rw [if_neg (by norm_num)]
    norm_num [Real.arccos_one])

/-- C3: the moving average preserves length, is the identity for `k ≤ 1`,
and for `k > 1` each output point is the arithmetic mean of the input
points with indices in `[max 0 (i - k/2), min (T-1) (i + k/2)]` — edge
windows average only the samples that exist, with no zero-padding and no
wraparound. -/
theorem C3_moving_average_spec (s : List Point) (k : ℕ) :
    (moving_average s k).length = s.length
    ∧ (k ≤ 1 → moving_average s k = s)
    ∧ (1 < k → ∀ i, i < s.length →
        (moving_average s k).getD i (0, 0) = windowMean s k i) := by
  refine ⟨?_, ?_, ?_⟩
  · unfold moving_average
    split
    · rfl
    · simp
  · intro h
    unfold moving_average
    rw [if_pos h]
  · intro hk i hi
    unfold moving_average
    rw [if_neg (by omega)]
    dsimp only
    rw [List.getD_eq_getElem?_getD, List.getElem?_map, List.getElem?_range hi]
    simp only [Option.map_some', Option.getD_some]
    have hw : min s.length (i + k / 2 + 1) - (i - k / 2)
        = min (s.length - 1) (i + k / 2) + 1 - (i - k / 2) := by omega
    unfold windowMean windowIdxs
    dsimp only
    rw [hw, List.map_map, List.map_map, List.length_map]
    rfl


/-- Witness for C3: identity at `k = 1` and the window-mean description at
`k = 3`, `i = 1`, on a concrete 3-point series. -/
theorem C3_moving_average_spec_witness :
    moving_average seriesW 1 = seriesW
    ∧ (moving_average seriesW 3).getD 1 (0, 0) = windowMean seriesW 3 1 :=
  ⟨(C3_moving_average_spec seriesW 1).2.1 (by norm_num),
   (C3_moving_average_spec seriesW 3).2.2 (by norm_num) 1 (by norm_num [seriesW])⟩

-- ### Lemmas about the track/compute pipeline

/-- `MP` lookup of the left shoulder. -/
lemma mp_left_shoulder : mp ("left_shoulder") = 11 := rfl

/-- `MP` lookup of the right shoulder. -/
lemma mp_right_shoulder : mp ("right_shoulder") = 12 := rfl

/-- `MP` lookup of the left elbow. -/
lemma mp_left_elbow : mp ("left_elbow") = 13 := rfl

/-- `MP` lookup of the right elbow. -/
lemma mp_right_elbow : mp ("right_elbow") = 14 := rfl

/-- `MP` lookup of the left wrist. -/
lemma mp_left_wrist : mp ("left_wrist") = 15 := rfl

/-- `MP` lookup of the right wrist. -/
lemma mp_right_wrist : mp ("right_wrist") = 16 := rfl

/-- `MP` lookup of the left hip. -/
lemma mp_left_hip : mp ("left_hip") = 23 := rfl

/-- `MP` lookup of the right hip. -/
lemma mp_right_hip : mp ("right_hip") = 24 := rfl

/-- A joint unbound in any one frame kills its whole raw series. -/
lemma joint_positions_eq_none (kps : List Frame) (idx : ℕ) (fr : Frame)
    (hfr : fr ∈ kps) (h : List.lookup idx fr = none) :
    joint_positions kps idx = none := by
  induction kps with
  | nil => cases hfr
  | cons a rest ih =>
    rcases List.mem_cons.mp hfr with rfl | hfr2
    · unfold joint_positions
      rw [h]
    · unfold joint_positions
      rw [ih hfr2]
      cases List.lookup idx a <;> rfl

/-- A joint bound in every frame has a complete raw series. -/
lemma joint_positions_eq_some (kps : List Frame) (idx : ℕ)
    (h : ∀ fr ∈ kps, (List.lookup idx fr).isSome) :
    ∃ ps, joint_positions kps idx = some ps := by
  induction kps with
  | nil => exact ⟨[], rfl⟩
  | cons a rest ih =>
    obtain ⟨p, hp⟩ := Option.isSome_iff_exists.mp (h a (List.mem_cons_self a rest))
    obtain ⟨ps, hps⟩ := ih (fun fr hfr => h fr (List.mem_cons_of_mem a hfr))
    refine ⟨p :: ps, ?_⟩
    unfold joint_positions
    rw [hp, hps]

/-- A joint unbound in any one frame kills its smoothed track. -/
lemma track_eq_none (kps : List Frame) (idx : ℕ) (fr : Frame)
    (hfr : fr ∈ kps) (h : List.lookup idx fr = none) :
    track kps idx = none := by
  unfold track
  rw [joint_positions_eq_none kps idx fr hfr h]
  rfl

/-- A joint bound in every frame has a smoothed track. -/
lemma track_eq_some (kps : List Frame) (idx : ℕ)
    (h : ∀ fr ∈ kps, (List.lookup idx fr).isSome) :
    ∃ s, track kps idx = some s := by
  obtain ⟨ps, hps⟩ := joint_positions_eq_some kps idx h
  refine ⟨moving_average ps 5, ?_⟩
  unfold track
  rw [hps]
  rfl

/-- If any of the eight tracked joints has no track, the whole computation
raises (`none`). -/
lemma compute_eq_none_of_track_none (kps : List Frame) (phases : List PhaseMark)
    (fps : ℝ) (rh : Bool) (hT : kps.length ≠ 0) (j : ℕ) (hj : j ∈ joints8)
    (h : track kps j = none) :
    compute_features_from_keypoints kps phases fps rh = none := by
  unfold compute_features_from_keypoints
  rw [if_neg hT]
  simp only [mp_left_shoulder, mp_right_shoulder, mp_left_elbow, mp_right_elbow,
    mp_left_wrist, mp_right_wrist, mp_left_hip, mp_right_hip]
  split
  · simp only [joints8, List.mem_cons, List.not_mem_nil, or_false] at hj
    rcases hj with rfl | rfl | rfl | rfl | rfl | rfl | rfl | rfl <;> simp_all
  · rfl

/-- When all eight tracks exist, the computation assembles the bundle from
them. -/
lemma compute_eq_assemble (kps : List Frame) (phases : List PhaseMark)
    (fps : ℝ) (rh : Bool) (hT : kps.length ≠ 0)
    (LSH RSH LEL REL LWR RWR LHP RHP : List Point)
    (h11 : track kps 11 = some LSH) (h12 : track kps 12 = some RSH)
    (h13 : track kps 13 = some LEL) (h14 : track kps 14 = some REL)
    (h15 : track kps 15 = some LWR) (h16 : track kps 16 = some RWR)
    (h23 : track kps 23 = some LHP) (h24 : track kps 24 = some RHP) :
    compute_features_from_keypoints kps phases fps rh
      = some (assemble LSH RSH LEL REL LWR RWR LHP RHP phases kps.length fps rh) := by
  unfold compute_features_from_keypoints
  rw [if_neg hT]
  simp only [mp_left_shoulder, mp_right_shoulder, mp_left_elbow, mp_right_elbow,
    mp_left_wrist, mp_right_wrist, mp_left_hip, mp_right_hip,
    h11, h12, h13, h14, h15, h16, h23, h24]

/-- The `T = 0` early return of the source, verbatim. -/
lemma compute_nil (phases : List PhaseMark) (fps : ℝ) (rh : Bool) :
    compute_features_from_keypoints [] phases fps rh
      = some { contact := none, follow_through := none, timing := none,
               meta := { fps := fps, right_handed := none, norm_segments_px := none } } := rfl

/-- The joints required for the anchor measurements are among the eight
tracked joints. -/
lemma requiredAnchorJoints_subset (rh : Bool) :
    ∀ j ∈ requiredAnchorJoints rh, j ∈ joints8 := by
  cases rh <;> decide


-- ### Claim theorems

/-- C1: with `T ≥ 1`, if a joint required for an anchor-frame measurement
(the lead wrist, elbow, shoulder, the lead hip, or either shoulder) is
absent at the contact anchor frame where it is needed, the engine
surfaces a failure (`none`, modelling the raised `KeyError`) rather than
returning a partial or garbled `FeatureBundle`. -/
theorem C1_missing_anchor_joint_fails (kps : List Frame) (phases : List PhaseMark)
    (fps : ℝ) (rh : Bool) (hT : 1 ≤ kps.length)
    (j : ℕ) (hj : j ∈ requiredAnchorJoints rh)
    (hmiss : List.lookup j (kps.getD (anchors phases kps.length).1 []) = none) :
    compute_features_from_keypoints kps phases fps rh = none := by
  have hfc : (anchors phases kps.length).1 < kps.length := by
    rw [anchors_contact]
    exact clampT_lt _ hT _
  have hmem : kps.getD (anchors phases kps.length).1 [] ∈ kps := by
    rw [List.getD_eq_getElem?_getD, List.getElem?_eq_getElem hfc]
    exact List.getElem_mem hfc
  have ht := track_eq_none kps j _ hmem hmiss
  exact compute_eq_none_of_track_none kps phases fps rh (by omega) j
    (requiredAnchorJoints_subset rh j hj) ht

/-- Witness for C1: a single frame binding no joints; the right wrist
(required at the contact anchor, frame 0) is absent, and the engine
returns `none`. -/
theorem C1_missing_anchor_joint_fails_witness :
    compute_features_from_keypoints [([] : Frame)] [] 30 true = none :=
  C1_missing_anchor_joint_fails [([] : Frame)] [] 30 true (by decide) 16
    (by decide) (by rfl)

/-- C4 counterexample: at `T = 0` the returned bundle's `meta` holds only
the `fps` key — `meta.right_handed` and `meta.norm_segments_px` are
absent, contrary to the claim that the neutral bundle carries them. -/
theorem C4_counterexample :
    ¬ ∃ b, compute_features_from_keypoints [] [] 30 true = some b
        ∧ b.meta.right_handed.isSome ∧ b.meta.norm_segments_px.isSome := by
  rintro ⟨b, hb, h1, h2⟩
  rw [compute_nil] at hb
  cases Option.some_inj.mp hb
  simp at h1

/-- C4 (amended): for every `phases`, `fps` and `right_handed`, the empty
input returns — without raising — the neutral bundle whose three feature
sub-records are empty and whose metadata carries only `meta.fps`
(`meta.right_handed` and `meta.norm_segments_px` are absent). -/
theorem C4_empty_input_neutral_amended (phases : List PhaseMark) (fps : ℝ) (rh : Bool) :
    compute_features_from_keypoints [] phases fps rh
      = some { contact := none, follow_through := none, timing := none,
               meta := { fps := fps, right_handed := none, norm_segments_px := none } } :=
  compute_nil phases fps rh

/-- C10 counterexample: in `kpsGap` every tracked joint is bound at all
three resolved anchor frames, yet the computation fails (`none`) because
the left shoulder is unbound at the non-anchor frame 1 — the engine reads
every frame to build smoothed tracks, not only the anchor frames. -/
theorem C10_counterexample :
    (∀ j ∈ joints8,
        (List.lookup j (kpsGap.getD (anchors [] kpsGap.length).1 [])).isSome
      ∧ (List.lookup j (kpsGap.getD (anchors [] kpsGap.length).2.1 [])).isSome
      ∧ (List.lookup j (kpsGap.getD (anchors [] kpsGap.length).2.2 [])).isSome)
    ∧ compute_features_from_keypoints kpsGap [] 30 true = none := by
  constructor
  · decide
  · have ht : track kpsGap 11 = none :=
      track_eq_none kpsGap 11 gapFrame (by simp [kpsGap]) (by decide)
    exact compute_eq_none_of_track_none kpsGap [] 30 true (by decide) 11 (by decide) ht

/-- C10 (amended): with `T ≥ 1` the computation succeeds exactly when all
eight tracked joints are bound in every frame — the engine reads every
frame (to build the smoothed tracks), so absence anywhere, anchor frame
or not, makes it fail. -/
theorem C10_presence_needed_everywhere_amended (kps : List Frame)
    (phases : List PhaseMark) (fps : ℝ) (rh : Bool) (hT : 1 ≤ kps.length) :
    (compute_features_from_keypoints kps phases fps rh).isSome
      ↔ ∀ j ∈ joints8, ∀ fr ∈ kps, (List.lookup j fr).isSome := by
  constructor
  · intro h j hj fr hfr
    by_contra hns
    have hnone : List.lookup j fr = none := Option.not_isSome_iff_eq_none.mp hns
    have ht := track_eq_none kps j fr hfr hnone
    rw [compute_eq_none_of_track_none kps phases fps rh (by omega) j hj ht] at h
    simp at h
  · intro h
    obtain ⟨LSH, h11⟩ := track_eq_some kps 11 (h 11 (by decide))
    obtain ⟨RSH, h12⟩ := track_eq_some kps 12 (h 12 (by decide))
    obtain ⟨LEL, h13⟩ := track_eq_some kps 13 (h 13 (by decide))
    obtain ⟨REL, h14⟩ := track_eq_some kps 14 (h 14 (by decide))
    obtain ⟨LWR, h15⟩ := track_eq_some kps 15 (h 15 (by decide))
    obtain ⟨RWR, h16⟩ := track_eq_some kps 16 (h 16 (by decide))
    obtain ⟨LHP, h23⟩ := track_eq_some kps 23 (h 23 (by decide))
    obtain ⟨RHP, h24⟩ := track_eq_some kps 24 (h 24 (by decide))
    rw [compute_eq_assemble kps phases fps rh (by omega) LSH RSH LEL REL LWR RWR LHP RHP
      h11 h12 h13 h14 h15 h16 h23 h24]
    rfl

/-- Witness for the amended C10 at a one-frame input binding all joints. -/
theorem C10_presence_needed_everywhere_amended_witness :
    (compute_features_from_keypoints [fullFrame] [] 30 true).isSome
      ↔ ∀ j ∈ joints8, ∀ fr ∈ [fullFrame], (List.lookup j fr).isSome :=
  C10_presence_needed_everywhere_amended [fullFrame] [] 30 true (by decide)

/-- C9: two calls that differ only in (positive) fps yield the same result
up to the `meta.fps` field — fps is carried through to output metadata
only and influences no computed feature. -/
theorem C9_fps_only_affects_meta (kps : List Frame) (phases : List PhaseMark)
    (rh : Bool) (f1 f2 : ℝ) (hf1 : 0 < f1) (hf2 : 0 < f2) :
    compute_features_from_keypoints kps phases f2 rh
      = (compute_features_from_keypoints kps phases f1 rh).map
          (fun b => b.withFps f2) := by
  by_cases hT : kps.length = 0
  · have h0 : kps = [] := List.length_eq_zero.mp hT
    subst h0
    rw [compute_nil, compute_nil]
    rfl
  · by_cases hall : ∀ j ∈ joints8, ∀ fr ∈ kps, (List.lookup j fr).isSome
    · obtain ⟨LSH, h11⟩ := track_eq_some kps 11 (hall 11 (by decide))
      obtain ⟨RSH, h12⟩ := track_eq_some kps 12 (hall 12 (by decide))
      obtain ⟨LEL, h13⟩ := track_eq_some kps 13 (hall 13 (by decide))
      obtain ⟨REL, h14⟩ := track_eq_some kps 14 (hall 14 (by decide))
      obtain ⟨LWR, h15⟩ := track_eq_some kps 15 (hall 15 (by decide))
      obtain ⟨RWR, h16⟩ := track_eq_some kps 16 (hall 16 (by decide))
      obtain ⟨LHP, h23⟩ := track_eq_some kps 23 (hall 23 (by decide))
      obtain ⟨RHP, h24⟩ := track_eq_some kps 24 (hall 24 (by decide))
      rw [compute_eq_assemble kps phases f2 rh hT LSH RSH LEL REL LWR RWR LHP RHP
          h11 h12 h13 h14 h15 h16 h23 h24,
        compute_eq_assemble kps phases f1 rh hT LSH RSH LEL REL LWR RWR LHP RHP
          h11 h12 h13 h14 h15 h16 h23 h24]
      rfl
    · push_neg at hall
      obtain ⟨j, hj, fr, hfr, hns⟩ := hall
      have ht := track_eq_none kps j fr hfr (Option.not_isSome_iff_eq_none.mp hns)
      rw [compute_eq_none_of_track_none kps phases f2 rh hT j hj ht,
        compute_eq_none_of_track_none kps phases f1 rh hT j hj ht]
      rfl

/-- Witness for C9 at a concrete one-frame input and fps 30 vs 60. -/
theorem C9_fps_only_affects_meta_witness :
    compute_features_from_keypoints [fullFrame] [] 60 true
      = (compute_features_from_keypoints [fullFrame] [] 30 true).map
          (fun b => b.withFps 60) :=
  C9_fps_only_affects_meta [fullFrame] [] true 30 60 (by norm_num) (by norm_num)

/-- If the lead elbow coincides with the lead shoulder or the lead wrist
at the contact anchor (after smoothing), the assembled bundle's
`elbow_flex_deg` is the `none` sentinel while the other sub-records are
still built. -/
lemma assemble_elbow_none (LSH RSH LEL REL LWR RWR LHP RHP : List Point)
    (phases : List PhaseMark) (T : ℕ) (fps : ℝ) (rh : Bool)
    (hdeg : (if rh then REL else LEL).getD (anchors phases T).1 (0, 0)
        = (if rh then RSH else LSH).getD (anchors phases T).1 (0, 0)
      ∨ (if rh then REL else LEL).getD (anchors phases T).1 (0, 0)
        = (if rh then RWR else LWR).getD (anchors phases T).1 (0, 0)) :
    ∃ c, (assemble LSH RSH LEL REL LWR RWR LHP RHP phases T fps rh).contact = some c
      ∧ c.elbow_flex_deg = none := by
  refine ⟨_, rfl, ?_⟩
  show _angle_at ((if rh then REL else LEL).getD (anchors phases T).1 (0, 0))
      ((if rh then RSH else LSH).getD (anchors phases T).1 (0, 0))
      ((if rh then RWR else LWR).getD (anchors phases T).1 (0, 0)) = none
  rw [angle_at_eq_none_iff]
  rcases hdeg with h | h
  · exact Or.inl h.symm
  · exact Or.inr h.symm

/-- C8: with `T ≥ 1` and every tracked joint bound in every frame, if at
the contact anchor the smoothed lead elbow coincides with the smoothed
lead shoulder or with the smoothed lead wrist, the engine does not raise:
it returns a bundle whose `elbow_flex_deg` is the `none` sentinel while
the contact, follow-through and timing features are still computed. -/
theorem C8_degenerate_elbow_propagates_none (kps : List Frame)
    (phases : List PhaseMark) (fps : ℝ) (rh : Bool) (hT : 1 ≤ kps.length)
    (hall : ∀ j ∈ joints8, ∀ fr ∈ kps, (List.lookup j fr).isSome)
    (hdeg : smoothed_at kps (lead_elbow rh) (anchors phases kps.length).1
        = smoothed_at kps (lead_shoulder rh) (anchors phases kps.length).1
      ∨ smoothed_at kps (lead_elbow rh) (anchors phases kps.length).1
        = smoothed_at kps (lead_wrist rh) (anchors phases kps.length).1) :
    ∃ b, compute_features_from_keypoints kps phases fps rh = some b
      ∧ (∃ c, b.contact = some c ∧ c.elbow_flex_deg = none)
      ∧ b.follow_through.isSome ∧ b.timing.isSome := by
  obtain ⟨LSH, h11⟩ := track_eq_some kps 11 (hall 11 (by decide))
  obtain ⟨RSH, h12⟩ := track_eq_some kps 12 (hall 12 (by decide))
  obtain ⟨LEL, h13⟩ := track_eq_some kps 13 (hall 13 (by decide))
  obtain ⟨REL, h14⟩ := track_eq_some kps 14 (hall 14 (by decide))
  obtain ⟨LWR, h15⟩ := track_eq_some kps 15 (hall 15 (by decide))
  obtain ⟨RWR, h16⟩ := track_eq_some kps 16 (hall 16 (by decide))
  obtain ⟨LHP, h23⟩ := track_eq_some kps 23 (hall 23 (by decide))
  obtain ⟨RHP, h24⟩ := track_eq_some kps 24 (hall 24 (by decide))
  refine ⟨assemble LSH RSH LEL REL LWR RWR LHP RHP phases kps.length fps rh,
    compute_eq_assemble kps phases fps rh (by omega) LSH RSH LEL REL LWR RWR LHP RHP
      h11 h12 h13 h14 h15 h16 h23 h24, ?_, by constructor, by constructor⟩
  apply assemble_elbow_none
  unfold smoothed_at at hdeg
  cases rh
  · simp only [lead_elbow, lead_shoulder, lead_wrist, if_false, Bool.false_eq_true] at hdeg ⊢
    rw [h13, h11, h15] at hdeg
    simp only [Option.map_some'] at hdeg
    rcases hdeg with h | h
    · exact Or.inl (Option.some_inj.mp h)
    · exact Or.inr (Option.some_inj.mp h)
  · simp only [lead_elbow, lead_shoulder, lead_wrist, if_true] at hdeg ⊢
    rw [h14, h12, h16] at hdeg
    simp only [Option.map_some'] at hdeg
    rcases hdeg with h | h
    · exact Or.inl (Option.some_inj.mp h)
    · exact Or.inr (Option.some_inj.mp h)

/-- Witness for C8: one frame with all joints at the origin; every smoothed
position coincides, so the elbow angle degenerates and comes back as the
`none` sentinel inside a successfully returned bundle. -/
theorem C8_degenerate_elbow_propagates_none_witness :
    ∃ b, compute_features_from_keypoints [fullFrame] [] 30 true = some b
      ∧ (∃ c, b.contact = some c ∧ c.elbow_flex_deg = none)
      ∧ b.follow_through.isSome ∧ b.timing.isSome :=
  C8_degenerate_elbow_propagates_none [fullFrame] [] 30 true (by decide)
    (by decide) (Or.inl rfl)
